import Mathlib

/-!
Shallow embedding of the real-time broadcast engine of the openspotter
backend (`backend/app/websocket/manager.py` and the WebSocket receive loops
in `backend/app/routers/locations.py` / `backend/app/routers/messages.py`).

Modelling choices:
* Python `dict` is modelled as an association list `List (Nat × α)` with
  Python semantics: assignment updates the value in place when the key is
  present (keeping its position) and appends otherwise; `del` removes the
  key's entry; lookup returns the first entry for the key.
* A `UUID` (user id, channel id) is modelled as a `Nat`; a `WebSocket`
  object (the outbound sink) is likewise an opaque `Nat` identifier.
* `await ws.send_json(...)` is modelled by a parameter `fails : Nat → Bool`
  telling, per sink, whether the send raises; the broadcast functions return
  the resulting manager state together with the list of `(client_id, sink)`
  pairs to which a send was attempted.
* Exceptions escaping the routers' `while True` receive loop are modelled by
  the step functions returning `false` for "connection stays open" and
  applying the manager's `disconnect` (the routers' `except` handlers).
-/

namespace OpenSpotter

/-- Roles of `app.models.user.UserRole`. -/
inductive UserRole where
  | spotter
  | verified_spotter
  | coordinator
  | admin
deriving DecidableEq, Repr

/-- Position of a role in the hierarchy used by `routers/messages.py`
(`role_hierarchy = {"spotter": 0, "verified_spotter": 1, "coordinator": 2, "admin": 3}`). -/
def UserRole.rank : UserRole → Nat
  | .spotter => 0
  | .verified_spotter => 1
  | .coordinator => 2
  | .admin => 3

/-- The fields of `app.models.user.User` that the broadcast engine reads:
the identity key, the role used by visibility checks, and the stored
sharing preference used as the default visibility tier. -/
structure User where
  id : Nat
  role : UserRole
  share_location_with : String
deriving DecidableEq, Repr

/-- The field of `app.models.location.Location` that drives recipient
selection in `LocationManager.broadcast_location`. -/
structure Location where
  visibility : String
deriving DecidableEq, Repr

/-- The routing fields of `app.models.message.Message` read by
`ChatManager.broadcast_message`. -/
structure Message where
  channel_id : Option Nat
  recipient_id : Option Nat
deriving DecidableEq, Repr

/-! ### Python `dict` as an association list -/

/-- `d.get(k)` / `d[k]`: first value stored under `k`. -/
def dictGet {α : Type} : List (Nat × α) → Nat → Option α
  | [], _ => none
  | (k', v) :: rest, k => if k' = k then some v else dictGet rest k

/-- `d[k] = v`: replace in place when present, append otherwise. -/
def dictInsert {α : Type} : List (Nat × α) → Nat → α → List (Nat × α)
  | [], k, v => [(k, v)]
  | (k', v') :: rest, k, v =>
    if k' = k then (k, v) :: rest else (k', v') :: dictInsert rest k v

/-- `del d[k]` (guarded by `if k in d` in the source, so absence is a no-op). -/
def dictRemove {α : Type} (d : List (Nat × α)) (k : Nat) : List (Nat × α) :=
  d.filter fun p => if p.1 = k then false else true

/-- The key set of a dict, in iteration order. -/
def keys {α : Type} (d : List (Nat × α)) : List Nat :=
  d.map Prod.fst

/-- Python `set.add`. -/
def setAdd (l : List Nat) (x : Nat) : List Nat :=
  if x ∈ l then l else l ++ [x]

/-- Python `set.discard`. -/
def setDiscard (l : List Nat) (x : Nat) : List Nat :=
  l.filter fun y => if y = x then false else true

/-! ### LocationManager -/

/-- State of `LocationManager`: `active_connections : Dict[UUID, WebSocket]`
and `user_data : Dict[UUID, User]`. -/
structure LMState where
  active_connections : List (Nat × Nat)
  user_data : List (Nat × User)
deriving DecidableEq, Repr

namespace LocationManager

/-- `LocationManager.__init__`. -/
def init : LMState := ⟨[], []⟩

/-- `LocationManager.connect`: store the sink and the user under `user.id`. -/
def connect (websocket : Nat) (user : User) (s : LMState) : LMState :=
  { active_connections := dictInsert s.active_connections user.id websocket
    user_data := dictInsert s.user_data user.id user }

/-- `LocationManager.connect` has no `return` statement, so its Python value
is `None` on every path; paired here with the state update so the (absent)
returned previous sink can be compared with the spec's `register` contract. -/
def connectRet (websocket : Nat) (user : User) (s : LMState) : LMState × Option Nat :=
  (connect websocket user s, none)

/-- `LocationManager.disconnect`: delete `user.id` from both dicts when
present.  The `websocket` argument is accepted but never consulted. -/
def disconnect (websocket : Nat) (user : User) (s : LMState) : LMState :=
  { active_connections := dictRemove s.active_connections user.id
    user_data := dictRemove s.user_data user.id }

/-- The visibility check inlined in `LocationManager.broadcast_location`
(lines 57–70): the `can_see` flag as a function of the location's
visibility string and the viewing client's role. -/
def can_see (visibility : String) (role : UserRole) : Bool :=
  if visibility = "public" then true
  else if visibility = "verified" ∧
      (role = .verified_spotter ∨ role = .coordinator ∨ role = .admin) then true
  else if visibility = "coordinators" ∧
      (role = .coordinator ∨ role = .admin) then true
  else false

/-- The `for client_id, ws in list(self.active_connections.items())` loop of
`broadcast_location`, iterating over a snapshot of the registry while the
live state is threaded through (the `except` handler mutates it via
`disconnect`).  Returns the final state and the attempted sends. -/
def broadcastGo (user : User) (visibility : String) (fails : Nat → Bool) :
    List (Nat × Nat) → LMState → LMState × List (Nat × Nat)
  | [], s => (s, [])
  | (client_id, ws) :: rest, s =>
    if client_id = user.id then
      broadcastGo user visibility fails rest s
    else
      match dictGet s.user_data client_id with
      | none => broadcastGo user visibility fails rest s
      | some client_user =>
        if can_see visibility client_user.role then
          let s' := if fails ws then disconnect ws client_user s else s
          let result := broadcastGo user visibility fails rest s'
          (result.1, (client_id, ws) :: result.2)
        else
          broadcastGo user visibility fails rest s

/-- `LocationManager.broadcast_location`. -/
def broadcast_location (user : User) (location : Location) (fails : Nat → Bool)
    (s : LMState) : LMState × List (Nat × Nat) :=
  broadcastGo user location.visibility fails s.active_connections s

/-- `LocationManager.stop_sharing`: sends the tombstone to every connection
other than the sender's; a send failure is swallowed (`except: pass`), so
the state is unchanged and every non-sender entry is attempted regardless
of `fails`. -/
def stop_sharing (user : User) (fails : Nat → Bool) (s : LMState) :
    LMState × List (Nat × Nat) :=
  (s, s.active_connections.filter fun p => if p.1 = user.id then false else true)

end LocationManager

/-! ### ChatManager -/

/-- State of `ChatManager`: the two dicts of `LocationManager` plus
`channel_subscriptions : Dict[UUID, Set[UUID]]`. -/
structure CMState where
  active_connections : List (Nat × Nat)
  user_data : List (Nat × User)
  channel_subscriptions : List (Nat × List Nat)
deriving DecidableEq, Repr

namespace ChatManager

/-- `ChatManager.__init__`. -/
def init : CMState := ⟨[], [], []⟩

/-- `ChatManager.connect`. -/
def connect (websocket : Nat) (user : User) (s : CMState) : CMState :=
  { s with
    active_connections := dictInsert s.active_connections user.id websocket
    user_data := dictInsert s.user_data user.id user }

/-- `ChatManager.connect` paired with its (absent) Python return value. -/
def connectRet (websocket : Nat) (user : User) (s : CMState) : CMState × Option Nat :=
  (connect websocket user s, none)

/-- `ChatManager.disconnect`: delete `user.id` from both dicts when present
(the `websocket` argument is never consulted), then `discard` the id from
every channel's subscriber set. -/
def disconnect (websocket : Nat) (user : User) (s : CMState) : CMState :=
  { active_connections := dictRemove s.active_connections user.id
    user_data := dictRemove s.user_data user.id
    channel_subscriptions :=
      s.channel_subscriptions.map fun p => (p.1, setDiscard p.2 user.id) }

/-- The reverse lookup shared by `join_channel` and `leave_channel`: find the
first `user_id` whose stored sink is `websocket`. -/
def findUserId (websocket : Nat) (s : CMState) : Option Nat :=
  (s.active_connections.find? fun p => p.2 = websocket).map Prod.fst

/-- `ChatManager.join_channel`: when the websocket resolves to a user id,
ensure the channel has a subscriber set and add the id to it. -/
def join_channel (websocket : Nat) (channel_id : Nat) (s : CMState) : CMState :=
  match findUserId websocket s with
  | none => s
  | some user_id =>
    let subs := (dictGet s.channel_subscriptions channel_id).getD []
    { s with channel_subscriptions :=
        dictInsert s.channel_subscriptions channel_id (setAdd subs user_id) }

/-- `ChatManager.leave_channel`: when the websocket resolves to a user id and
the channel has a subscriber set, discard the id from it. -/
def leave_channel (websocket : Nat) (channel_id : Nat) (s : CMState) : CMState :=
  match findUserId websocket s with
  | none => s
  | some user_id =>
    match dictGet s.channel_subscriptions channel_id with
    | none => s
    | some subs =>
      { s with channel_subscriptions :=
          dictInsert s.channel_subscriptions channel_id (setDiscard subs user_id) }

/-- `ChatManager.broadcast_message`: channel messages go to every subscriber
whose sink resolves in the registry; direct messages go to the recipient's
sink (when registered) and are echoed to the sender's own sink (when
registered).  Send failures are swallowed (`except: pass`): the state is
unchanged and `fails` does not affect the attempts. -/
def broadcast_message (sender : User) (message : Message) (fails : Nat → Bool)
    (s : CMState) : CMState × List (Nat × Nat) :=
  match message.channel_id with
  | some channel_id =>
    let subscribers := (dictGet s.channel_subscriptions channel_id).getD []
    (s, subscribers.filterMap fun user_id =>
      (dictGet s.active_connections user_id).map fun ws => (user_id, ws))
  | none =>
    match message.recipient_id with
    | some recipient_id =>
      let toRecipient :=
        match dictGet s.active_connections recipient_id with
        | some ws => [(recipient_id, ws)]
        | none => []
      let toSender :=
        match dictGet s.active_connections sender.id with
        | some ws => [(sender.id, ws)]
        | none => []
      (s, toRecipient ++ toSender)
    | none => (s, [])

end ChatManager

/-! ### Well-formedness invariants -/

/-- The invariant tying `active_connections` and `user_data` together in
either manager's state: dict keys are unique, both dicts are keyed by the
same identities, and a stored `User` sits under its own id. -/
def LMWf (s : LMState) : Prop :=
  (keys s.active_connections).Nodup ∧
  (keys s.user_data).Nodup ∧
  (∀ k ∈ keys s.active_connections, k ∈ keys s.user_data) ∧
  (∀ k ∈ keys s.user_data, k ∈ keys s.active_connections) ∧
  (∀ p ∈ s.user_data, p.2.id = p.1)

instance (s : LMState) : Decidable (LMWf s) := by
  unfold LMWf; infer_instance

/-- Well-formedness for `ChatManager` state: the registry invariant plus
uniqueness inside every channel's subscriber set. -/
def CMWf (s : CMState) : Prop :=
  (keys s.active_connections).Nodup ∧
  (keys s.user_data).Nodup ∧
  (∀ k ∈ keys s.active_connections, k ∈ keys s.user_data) ∧
  (∀ k ∈ keys s.user_data, k ∈ keys s.active_connections) ∧
  (∀ p ∈ s.user_data, p.2.id = p.1) ∧
  (∀ p ∈ s.channel_subscriptions, p.2.Nodup)

instance (s : CMState) : Decidable (CMWf s) := by
  unfold CMWf; infer_instance

/-- Placeholder user for total lookups. -/
def defaultUser : User := ⟨0, .spotter, "public"⟩

/-- The user stored in `user_data` under an identity (total version). -/
def storedUser (s : LMState) (cid : Nat) : User :=
  (dictGet s.user_data cid).getD defaultUser

/-! ### Registry/user-data key consistency -/

/-- The exact invariant of claim C10: `active_connections` and `user_data`
are keyed by the same set of identities. -/
def LMkeyEq (s : LMState) : Prop :=
  (∀ k ∈ keys s.active_connections, k ∈ keys s.user_data) ∧
  (∀ k ∈ keys s.user_data, k ∈ keys s.active_connections)

instance (s : LMState) : Decidable (LMkeyEq s) := by
  unfold LMkeyEq; infer_instance

/-- The same invariant for the chat manager's state. -/
def CMkeyEq (s : CMState) : Prop :=
  (∀ k ∈ keys s.active_connections, k ∈ keys s.user_data) ∧
  (∀ k ∈ keys s.user_data, k ∈ keys s.active_connections)

instance (s : CMState) : Decidable (CMkeyEq s) := by
  unfold CMkeyEq; infer_instance

/-! ### Router receive-loop steps -/

/-- An inbound frame of the location WebSocket (`routers/locations.py`).
`ftype` models `data.get("type")`; `latitude`/`longitude` model the presence
of the required keys read via `data["latitude"]` / `data["longitude"]`
(their numeric values, floats in the source, play no role in routing);
`visibility` models `data.get("visibility", ...)`. -/
structure LocFrame where
  ftype : Option String
  latitude : Option Int
  longitude : Option Int
  visibility : Option String
deriving DecidableEq, Repr

/-- An inbound frame of the chat WebSocket (`routers/messages.py`):
`data.get("type")`, the required `data["content"]`, and the optional
`data.get("channel_id")` / `data.get("recipient_id")`. -/
structure ChatFrame where
  ftype : Option String
  content : Option String
  channel_id : Option Nat
  recipient_id : Option Nat
deriving DecidableEq, Repr

/-- One iteration of the `while True` receive loop of `websocket_location`
(`routers/locations.py`, lines 196–226) for an authenticated, registered
user.  Returns the location-manager state after the iteration and whether
the loop continues.  Accessing a missing required key (`data["latitude"]`,
`data["longitude"]`) raises `KeyError`, which no handler inside the loop
catches: the outer `except` runs `location_manager.disconnect` and the
loop ends (`false`).  A frame whose `type` is neither recognized kind
falls through both `if` branches and is ignored. -/
def websocket_location_step (user : User) (websocket : Nat) (frame : LocFrame)
    (fails : Nat → Bool) (s : LMState) : LMState × Bool :=
  if frame.ftype = some "location_update" then
    match frame.latitude, frame.longitude with
    | some _, some _ =>
      let visibility := frame.visibility.getD user.share_location_with
      ((LocationManager.broadcast_location user ⟨visibility⟩ fails s).1, true)
    | _, _ => (LocationManager.disconnect websocket user s, false)
  else if frame.ftype = some "stop_sharing" then
    ((LocationManager.stop_sharing user fails s).1, true)
  else (s, true)

/-- One iteration of the `while True` receive loop of `websocket_chat`
(`routers/messages.py`, lines 331–361): a `"message"` frame missing its
required `content` key raises out of the loop (outer `except` disconnects);
`join_channel`/`leave_channel` frames missing `channel_id` likewise; an
unrecognized `type` is ignored and the loop continues. -/
def websocket_chat_step (user : User) (websocket : Nat) (frame : ChatFrame)
    (fails : Nat → Bool) (s : CMState) : CMState × Bool :=
  if frame.ftype = some "message" then
    match frame.content with
    | some _ =>
      ((ChatManager.broadcast_message user ⟨frame.channel_id, frame.recipient_id⟩ fails s).1,
        true)
    | none => (ChatManager.disconnect websocket user s, false)
  else if frame.ftype = some "join_channel" then
    match frame.channel_id with
    | some c => (ChatManager.join_channel websocket c s, true)
    | none => (ChatManager.disconnect websocket user s, false)
  else if frame.ftype = some "leave_channel" then
    match frame.channel_id with
    | some c => (ChatManager.leave_channel websocket c s, true)
    | none => (ChatManager.disconnect websocket user s, false)
  else (s, true)

/-! ### The visibility policy as a tier/role table -/

/-- The three visibility tiers of the spec, with the strings the source
stores in `Location.visibility` (`public`, `verified`, `coordinators`). -/
inductive Tier where
  | public
  | verified_only
  | coordinators_only
deriving DecidableEq, Repr

/-- The string the source uses for each tier. -/
def Tier.toVisibility : Tier → String
  | .public => "public"
  | .verified_only => "verified"
  | .coordinators_only => "coordinators"

/-- The source's visibility policy as a pure function of tier and viewer
role (the `can_see` computation of `broadcast_location`). -/
def may_observe (t : Tier) (r : UserRole) : Bool :=
  LocationManager.can_see t.toVisibility r

/-- The §4.2 table exactly as the claim words it: a public event is
observable by every role; verified-only by verified_spotter, coordinator or
admin; coordinators-only by coordinator or admin. -/
def may_observe_table (t : Tier) (r : UserRole) : Bool :=
  match t with
  | .public => true
  | .verified_only => decide (r = .verified_spotter ∨ r = .coordinator ∨ r = .admin)
  | .coordinators_only => decide (r = .coordinator ∨ r = .admin)

/-- Modelled from the spec: `register(identity, sink)` of §4.1 stores or
replaces the sink for the identity and returns the previously stored sink
(if any).  The storing half coincides with `LocationManager.connect`; the
returned previous sink has no counterpart in the source, which is what
claim C5 is tested against. -/
def register_spec (websocket : Nat) (user : User) (s : LMState) : LMState × Option Nat :=
  (LocationManager.connect websocket user s, dictGet s.active_connections user.id)

/-! ### Concrete principals and states for evaluations -/

/-- Sample coordinator principal. -/
def userA : User := ⟨1, .coordinator, "public"⟩

/-- Sample base-role principal. -/
def userB : User := ⟨2, .spotter, "public"⟩

/-- Sample verified-spotter principal. -/
def userC : User := ⟨3, .verified_spotter, "public"⟩

/-- A location-manager state with A, B, C connected on sinks 10, 20, 30. -/
def lmABC : LMState :=
  LocationManager.connect 30 userC
    (LocationManager.connect 20 userB
      (LocationManager.connect 10 userA LocationManager.init))

/-- A chat-manager state with A, B, C connected on sinks 10, 20, 30. -/
def cmABC : CMState :=
  ChatManager.connect 30 userC
    (ChatManager.connect 20 userB
      (ChatManager.connect 10 userA ChatManager.init))

/-- `cmABC` after A (sink 10) and B (sink 20) join channel 100. -/
def cmChan : CMState :=
  ChatManager.join_channel 10 100 (ChatManager.join_channel 20 100 cmABC)

/-! ### Association-list lemmas -/

theorem boolOfNe {a b : Nat} : (if a = b then false else true) = true ↔ a ≠ b := by
  by_cases h : a = b <;> simp [h]

@[simp] theorem keys_nil {α : Type} : keys ([] : List (Nat × α)) = [] := rfl

@[simp] theorem keys_cons {α : Type} (k : Nat) (v : α) (l : List (Nat × α)) :
    keys ((k, v) :: l) = k :: keys l := rfl

theorem dictGet_dictInsert_self {α : Type} (d : List (Nat × α)) (k : Nat) (v : α) :
    dictGet (dictInsert d k v) k = some v := by
  induction d with
  | nil => simp [dictInsert, dictGet]
  | cons hd tl ih =>
    obtain ⟨k', v'⟩ := hd
    by_cases h : k' = k <;> simp [dictInsert, dictGet, h, ih]

theorem dictGet_dictInsert_ne {α : Type} {d : List (Nat × α)} {k k' : Nat} {v : α}
    (h : k' ≠ k) : dictGet (dictInsert d k v) k' = dictGet d k' := by
  have hkk : k ≠ k' := fun e => h e.symm
  induction d with
  | nil => simp [dictInsert, dictGet, hkk]
  | cons hd tl ih =>
    obtain ⟨k₀, v₀⟩ := hd
    by_cases hk : k₀ = k
    · subst hk
      simp [dictInsert, dictGet, hkk]
    · simp [dictInsert, dictGet, hk, ih]

theorem dictGet_dictRemove_self {α : Type} (d : List (Nat × α)) (k : Nat) :
    dictGet (dictRemove d k) k = none := by
  induction d with
  | nil => rfl
  | cons hd tl ih =>
    obtain ⟨k', v'⟩ := hd
    by_cases h : k' = k
    · simpa [dictRemove, List.filter_cons, h] using ih
    · simpa [dictRemove, List.filter_cons, dictGet, h] using ih

theorem dictGet_dictRemove_ne {α : Type} {d : List (Nat × α)} {k k' : Nat}
    (h : k' ≠ k) : dictGet (dictRemove d k) k' = dictGet d k' := by
  have hkk : k ≠ k' := fun e => h e.symm
  induction d with
  | nil => rfl
  | cons hd tl ih =>
    obtain ⟨k₀, v₀⟩ := hd
    by_cases hk : k₀ = k
    · subst hk
      simpa [dictRemove, List.filter_cons, dictGet, hkk] using ih
    · simp [dictRemove, List.filter_cons, dictGet, hk] at ih ⊢
      by_cases hk' : k₀ = k' <;> simp [hk', ih]

theorem dictGet_dictRemove_none {α : Type} {d : List (Nat × α)} {k k' : Nat}
    (h : dictGet d k' = none) : dictGet (dictRemove d k) k' = none := by
  by_cases hk : k' = k
  · subst hk; exact dictGet_dictRemove_self d _
  · rw [dictGet_dictRemove_ne hk]; exact h

theorem mem_keys_iff_isSome {α : Type} {d : List (Nat × α)} {k : Nat} :
    k ∈ keys d ↔ (dictGet d k).isSome := by
  induction d with
  | nil => simp [dictGet]
  | cons hd tl ih =>
    obtain ⟨k', v'⟩ := hd
    by_cases h : k' = k
    · simp [dictGet, h]
    · have h' : k ≠ k' := fun e => h e.symm
      simp [dictGet, h, h', ih]

theorem mem_keys_dictInsert {α : Type} {d : List (Nat × α)} {k x : Nat} {v : α} :
    x ∈ keys (dictInsert d k v) ↔ x ∈ keys d ∨ x = k := by
  induction d with
  | nil => simp [dictInsert]
  | cons hd tl ih =>
    obtain ⟨k', v'⟩ := hd
    by_cases h : k' = k
    · subst h
      simp [dictInsert]
      tauto
    · simp [dictInsert, h]
      rw [ih]
      tauto

theorem mem_keys_dictRemove {α : Type} {d : List (Nat × α)} {k x : Nat} :
    x ∈ keys (dictRemove d k) ↔ x ∈ keys d ∧ x ≠ k := by
  constructor
  · intro hx
    obtain ⟨p, hp, hpx⟩ := List.mem_map.mp hx
    have hmem := List.mem_filter.mp hp
    refine ⟨List.mem_map.mpr ⟨p, hmem.1, hpx⟩, ?_⟩
    have := boolOfNe.mp hmem.2
    simpa [hpx] using this
  · rintro ⟨hx, hne⟩
    obtain ⟨p, hp, hpx⟩ := List.mem_map.mp hx
    exact List.mem_map.mpr
      ⟨p, List.mem_filter.mpr ⟨hp, boolOfNe.mpr (by simpa [hpx] using hne)⟩, hpx⟩

theorem keys_nodup_dictInsert {α : Type} {d : List (Nat × α)} {k : Nat} {v : α}
    (h : (keys d).Nodup) : (keys (dictInsert d k v)).Nodup := by
  induction d with
  | nil => simp [dictInsert]
  | cons hd tl ih =>
    obtain ⟨k', v'⟩ := hd
    rw [keys_cons, List.nodup_cons] at h
    by_cases hk : k' = k
    · subst hk
      simpa [dictInsert] using h
    · rw [show dictInsert ((k', v') :: tl) k v = (k', v') :: dictInsert tl k v by
        simp [dictInsert, hk], keys_cons, List.nodup_cons]
      refine ⟨fun hmem => ?_, ih h.2⟩
      rcases mem_keys_dictInsert.mp hmem with h' | h'
      · exact h.1 h'
      · exact hk h'

theorem keys_nodup_dictRemove {α : Type} {d : List (Nat × α)} {k : Nat}
    (h : (keys d).Nodup) : (keys (dictRemove d k)).Nodup := by
  have hsub : List.Sublist (keys (dictRemove d k)) (keys d) :=
    (List.filter_sublist d).map Prod.fst
  exact h.sublist hsub

theorem mem_dictInsert {α : Type} {d : List (Nat × α)} {k : Nat} {v : α} {p : Nat × α}
    (hp : p ∈ dictInsert d k v) : p ∈ d ∨ p = (k, v) := by
  induction d with
  | nil => simpa [dictInsert] using hp
  | cons hd tl ih =>
    obtain ⟨k', v'⟩ := hd
    by_cases h : k' = k
    · rcases (by simpa [dictInsert, h] using hp : p = (k, v) ∨ p ∈ tl) with h' | h'
      · exact Or.inr h'
      · exact Or.inl (List.mem_cons_of_mem _ h')
    · rcases (by simpa [dictInsert, h] using hp : p = (k', v') ∨ p ∈ dictInsert tl k v)
        with h' | h'
      · exact Or.inl (by simp [h'])
      · rcases ih h' with h'' | h''
        · exact Or.inl (List.mem_cons_of_mem _ h'')
        · exact Or.inr h''

theorem mem_dictRemove {α : Type} {d : List (Nat × α)} {k : Nat} {p : Nat × α}
    (hp : p ∈ dictRemove d k) : p ∈ d :=
  (List.mem_filter.mp hp).1

theorem dictGet_eq_some_mem {α : Type} {d : List (Nat × α)} {k : Nat} {v : α}
    (h : dictGet d k = some v) : (k, v) ∈ d := by
  induction d with
  | nil => simp [dictGet] at h
  | cons hd tl ih =>
    obtain ⟨k', v'⟩ := hd
    by_cases hk : k' = k
    · subst hk
      have : v' = v := by simpa [dictGet] using h
      simp [this]
    · exact List.mem_cons_of_mem _ (ih (by simpa [dictGet, hk] using h))

theorem dictGet_map_values {α β : Type} (g : α → β) (d : List (Nat × α)) (k : Nat) :
    dictGet (d.map fun p => (p.1, g p.2)) k = (dictGet d k).map g := by
  induction d with
  | nil => simp [dictGet]
  | cons hd tl ih =>
    obtain ⟨k', v'⟩ := hd
    by_cases h : k' = k <;> simp [dictGet, h, ih]

namespace LocationManager

theorem broadcastGo_nil (user : User) (vis : String) (fails : Nat → Bool) (s : LMState) :
    broadcastGo user vis fails [] s = (s, []) := rfl

theorem broadcastGo_cons (user : User) (vis : String) (fails : Nat → Bool)
    (cid ws : Nat) (rest : List (Nat × Nat)) (s : LMState) :
    broadcastGo user vis fails ((cid, ws) :: rest) s =
      if cid = user.id then broadcastGo user vis fails rest s
      else
        match dictGet s.user_data cid with
        | none => broadcastGo user vis fails rest s
        | some client_user =>
          if can_see vis client_user.role then
            let s' := if fails ws then disconnect ws client_user s else s
            let result := broadcastGo user vis fails rest s'
            (result.1, (cid, ws) :: result.2)
          else broadcastGo user vis fails rest s := rfl

theorem broadcastGo_cons_sender (user : User) (vis : String) (fails : Nat → Bool)
    {cid : Nat} (ws : Nat) (rest : List (Nat × Nat)) (s : LMState)
    (hcid : cid = user.id) :
    broadcastGo user vis fails ((cid, ws) :: rest) s =
      broadcastGo user vis fails rest s := by
  rw [broadcastGo_cons, if_pos hcid]

theorem broadcastGo_cons_nouser (user : User) (vis : String) (fails : Nat → Bool)
    {cid : Nat} (ws : Nat) (rest : List (Nat × Nat)) {s : LMState}
    (hcid : cid ≠ user.id) (hget : dictGet s.user_data cid = none) :
    broadcastGo user vis fails ((cid, ws) :: rest) s =
      broadcastGo user vis fails rest s := by
  rw [broadcastGo_cons, if_neg hcid, hget]

theorem broadcastGo_cons_nosee (user : User) (vis : String) (fails : Nat → Bool)
    {cid : Nat} (ws : Nat) (rest : List (Nat × Nat)) {s : LMState} {cu : User}
    (hcid : cid ≠ user.id) (hget : dictGet s.user_data cid = some cu)
    (hsee : can_see vis cu.role = false) :
    broadcastGo user vis fails ((cid, ws) :: rest) s =
      broadcastGo user vis fails rest s := by
  rw [broadcastGo_cons, if_neg hcid, hget]
  simp [hsee]

theorem broadcastGo_cons_see (user : User) (vis : String) (fails : Nat → Bool)
    {cid : Nat} (ws : Nat) (rest : List (Nat × Nat)) {s : LMState} {cu : User}
    (hcid : cid ≠ user.id) (hget : dictGet s.user_data cid = some cu)
    (hsee : can_see vis cu.role = true) :
    broadcastGo user vis fails ((cid, ws) :: rest) s =
      ((broadcastGo user vis fails rest
          (if fails ws then disconnect ws cu s else s)).1,
        (cid, ws) :: (broadcastGo user vis fails rest
          (if fails ws then disconnect ws cu s else s)).2) := by
  rw [broadcastGo_cons, if_neg hcid, hget]
  simp [hsee]

/-- Every attempted send during a location broadcast targets an entry of
the iterated registry snapshot. -/
theorem broadcastGo_sent_subset (user : User) (vis : String) (fails : Nat → Bool) :
    ∀ (l : List (Nat × Nat)) (s : LMState),
      ∀ p ∈ (broadcastGo user vis fails l s).2, p ∈ l := by
  intro l
  induction l with
  | nil => intro s p hp; simp [broadcastGo_nil] at hp
  | cons hd tl ih =>
    intro s p hp
    obtain ⟨cid, ws⟩ := hd
    by_cases hcid : cid = user.id
    · rw [broadcastGo_cons_sender user vis fails ws tl s hcid] at hp
      exact List.mem_cons_of_mem _ (ih s p hp)
    · cases hget : dictGet s.user_data cid with
      | none =>
        rw [broadcastGo_cons_nouser user vis fails ws tl hcid hget] at hp
        exact List.mem_cons_of_mem _ (ih s p hp)
      | some cu =>
        by_cases hsee : can_see vis cu.role
        · rw [broadcastGo_cons_see user vis fails ws tl hcid hget hsee] at hp
          rcases List.mem_cons.mp hp with h | h
          · simp [h]
          · exact List.mem_cons_of_mem _ (ih _ p h)
        · rw [broadcastGo_cons_nosee user vis fails ws tl hcid hget
            (Bool.not_eq_true _ ▸ Bool.of_not_eq_true hsee)] at hp
          exact List.mem_cons_of_mem _ (ih s p hp)

/-- A location broadcast never attempts a send to the sender's own
connection. -/
theorem broadcastGo_sent_ne_sender (user : User) (vis : String) (fails : Nat → Bool) :
    ∀ (l : List (Nat × Nat)) (s : LMState),
      ∀ p ∈ (broadcastGo user vis fails l s).2, p.1 ≠ user.id := by
  intro l
  induction l with
  | nil => intro s p hp; simp [broadcastGo_nil] at hp
  | cons hd tl ih =>
    intro s p hp
    obtain ⟨cid, ws⟩ := hd
    by_cases hcid : cid = user.id
    · rw [broadcastGo_cons_sender user vis fails ws tl s hcid] at hp
      exact ih s p hp
    · cases hget : dictGet s.user_data cid with
      | none =>
        rw [broadcastGo_cons_nouser user vis fails ws tl hcid hget] at hp
        exact ih s p hp
      | some cu =>
        by_cases hsee : can_see vis cu.role
        · rw [broadcastGo_cons_see user vis fails ws tl hcid hget hsee] at hp
          rcases List.mem_cons.mp hp with h | h
          · simpa [h] using hcid
          · exact ih _ p h
        · rw [broadcastGo_cons_nosee user vis fails ws tl hcid hget
            (Bool.not_eq_true _ ▸ Bool.of_not_eq_true hsee)] at hp
          exact ih s p hp

/-- During a location broadcast the registry dicts only shrink: an absent
key stays absent. -/
theorem broadcastGo_none_mono (user : User) (vis : String) (fails : Nat → Bool) :
    ∀ (l : List (Nat × Nat)) (s : LMState) (k : Nat),
      (dictGet s.active_connections k = none →
        dictGet (broadcastGo user vis fails l s).1.active_connections k = none) ∧
      (dictGet s.user_data k = none →
        dictGet (broadcastGo user vis fails l s).1.user_data k = none) := by
  intro l
  induction l with
  | nil => intro s k; constructor <;> intro h <;> simpa [broadcastGo_nil] using h
  | cons hd tl ih =>
    intro s k
    obtain ⟨cid, ws⟩ := hd
    by_cases hcid : cid = user.id
    · rw [broadcastGo_cons_sender user vis fails ws tl s hcid]; exact ih s k
    · cases hget : dictGet s.user_data cid with
      | none =>
        rw [broadcastGo_cons_nouser user vis fails ws tl hcid hget]; exact ih s k
      | some cu =>
        by_cases hsee : can_see vis cu.role
        · rw [broadcastGo_cons_see user vis fails ws tl hcid hget hsee]
          by_cases hf : fails ws
          · rw [if_pos hf]
            exact ⟨fun h => (ih (disconnect ws cu s) k).1 (dictGet_dictRemove_none h),
              fun h => (ih (disconnect ws cu s) k).2 (dictGet_dictRemove_none h)⟩
          · rw [if_neg hf]
            exact ih s k
        · rw [broadcastGo_cons_nosee user vis fails ws tl hcid hget
            (Bool.not_eq_true _ ▸ Bool.of_not_eq_true hsee)]
          exact ih s k

/-- Characterization of the attempted sends of a location broadcast: when
every iterated identity resolves (under its own id) in `user_data`, the
loop attempts a send exactly to the non-sender entries passing the
visibility check — send failures never shrink or grow the recipient set. -/
theorem broadcastGo_sent_eq (user : User) (vis : String) (fails : Nat → Bool)
    (f : Nat → User) :
    ∀ (l : List (Nat × Nat)) (s : LMState),
      (keys l).Nodup →
      (∀ p ∈ l, dictGet s.user_data p.1 = some (f p.1) ∧ (f p.1).id = p.1) →
      (broadcastGo user vis fails l s).2 =
        l.filter fun p =>
          if p.1 = user.id then false else can_see vis (f p.1).role := by
  intro l
  induction l with
  | nil => intro s _ _; rfl
  | cons hd tl ih =>
    intro s hnd hres
    obtain ⟨cid, ws⟩ := hd
    have hnd' := List.nodup_cons.mp (by simpa using hnd)
    have hcidtl : cid ∉ keys tl := hnd'.1
    have hndtl : (keys tl).Nodup := hnd'.2
    have hrestl : ∀ p ∈ tl, dictGet s.user_data p.1 = some (f p.1) ∧ (f p.1).id = p.1 :=
      fun p hp => hres p (List.mem_cons_of_mem _ hp)
    by_cases hcid : cid = user.id
    · rw [broadcastGo_cons_sender user vis fails ws tl s hcid,
        List.filter_cons_of_neg (by simp [hcid]), ih s hndtl hrestl]
    · have hget : dictGet s.user_data cid = some (f cid) :=
        (hres (cid, ws) (List.mem_cons_self _ _)).1
      have hid : (f cid).id = cid := (hres (cid, ws) (List.mem_cons_self _ _)).2
      by_cases hsee : can_see vis (f cid).role = true
      · by_cases hf : fails ws
        · rw [broadcastGo_cons_see user vis fails ws tl hcid hget hsee, if_pos hf,
            List.filter_cons_of_pos (by simp [hcid, hsee])]
          dsimp only
          have hrestl' : ∀ p ∈ tl,
              dictGet (disconnect ws (f cid) s).user_data p.1 = some (f p.1) ∧
                (f p.1).id = p.1 := by
            intro p hp
            have hne : p.1 ≠ cid := by
              intro he
              exact hcidtl (he ▸ List.mem_map.mpr ⟨p, hp, rfl⟩)
            refine ⟨?_, (hrestl p hp).2⟩
            show dictGet (dictRemove s.user_data (f cid).id) p.1 = some (f p.1)
            rw [hid, dictGet_dictRemove_ne hne]
            exact (hrestl p hp).1
          rw [ih (disconnect ws (f cid) s) hndtl hrestl']
        · rw [broadcastGo_cons_see user vis fails ws tl hcid hget hsee, if_neg hf,
            List.filter_cons_of_pos (by simp [hcid, hsee])]
          dsimp only
          rw [ih s hndtl hrestl]
      · rw [broadcastGo_cons_nosee user vis fails ws tl hcid hget
          (Bool.not_eq_true _ ▸ Bool.of_not_eq_true hsee),
          List.filter_cons_of_neg (by simp [hcid, hsee]), ih s hndtl hrestl]

/-- A recipient whose send fails during a location broadcast is removed
from both registry dicts by the `except` handler's `disconnect` call. -/
theorem broadcastGo_removes_failed (user : User) (vis : String) (fails : Nat → Bool)
    (f : Nat → User) :
    ∀ (l : List (Nat × Nat)) (s : LMState),
      (keys l).Nodup →
      (∀ p ∈ l, dictGet s.user_data p.1 = some (f p.1) ∧ (f p.1).id = p.1) →
      ∀ p ∈ l, p.1 ≠ user.id → can_see vis (f p.1).role = true → fails p.2 = true →
        dictGet (broadcastGo user vis fails l s).1.active_connections p.1 = none ∧
        dictGet (broadcastGo user vis fails l s).1.user_data p.1 = none := by
  intro l
  induction l with
  | nil => intro s _ _ p hp; simp at hp
  | cons hd tl ih =>
    intro s hnd hres p hp hpne hpsee hpf
    obtain ⟨cid, ws⟩ := hd
    have hnd' := List.nodup_cons.mp (by simpa using hnd)
    have hcidtl : cid ∉ keys tl := hnd'.1
    have hndtl : (keys tl).Nodup := hnd'.2
    have hrestl : ∀ q ∈ tl, dictGet s.user_data q.1 = some (f q.1) ∧ (f q.1).id = q.1 :=
      fun q hq => hres q (List.mem_cons_of_mem _ hq)
    rcases List.mem_cons.mp hp with hphd | hptl
    · subst hphd
      have hcid : cid ≠ user.id := hpne
      have hget : dictGet s.user_data cid = some (f cid) :=
        (hres (cid, ws) (List.mem_cons_self _ _)).1
      have hid : (f cid).id = cid := (hres (cid, ws) (List.mem_cons_self _ _)).2
      rw [broadcastGo_cons_see user vis fails ws tl hcid hget hpsee, if_pos hpf]
      dsimp only
      have hact : dictGet (disconnect ws (f cid) s).active_connections cid = none := by
        show dictGet (dictRemove s.active_connections (f cid).id) cid = none
        rw [hid]; exact dictGet_dictRemove_self _ _
      have hud : dictGet (disconnect ws (f cid) s).user_data cid = none := by
        show dictGet (dictRemove s.user_data (f cid).id) cid = none
        rw [hid]; exact dictGet_dictRemove_self _ _
      exact ⟨(broadcastGo_none_mono user vis fails tl _ cid).1 hact,
        (broadcastGo_none_mono user vis fails tl _ cid).2 hud⟩
    · by_cases hcid : cid = user.id
      · rw [broadcastGo_cons_sender user vis fails ws tl s hcid]
        exact ih s hndtl hrestl p hptl hpne hpsee hpf
      · have hget : dictGet s.user_data cid = some (f cid) :=
          (hres (cid, ws) (List.mem_cons_self _ _)).1
        have hid : (f cid).id = cid := (hres (cid, ws) (List.mem_cons_self _ _)).2
        by_cases hsee : can_see vis (f cid).role = true
        · by_cases hf : fails ws
          · rw [broadcastGo_cons_see user vis fails ws tl hcid hget hsee, if_pos hf]
            dsimp only
            have hrestl' : ∀ q ∈ tl,
                dictGet (disconnect ws (f cid) s).user_data q.1 = some (f q.1) ∧
                  (f q.1).id = q.1 := by
              intro q hq
              have hne : q.1 ≠ cid := fun he =>
                hcidtl (he ▸ List.mem_map.mpr ⟨q, hq, rfl⟩)
              refine ⟨?_, (hrestl q hq).2⟩
              show dictGet (dictRemove s.user_data (f cid).id) q.1 = some (f q.1)
              rw [hid, dictGet_dictRemove_ne hne]
              exact (hrestl q hq).1
            exact ih (disconnect ws (f cid) s) hndtl hrestl' p hptl hpne hpsee hpf
          · rw [broadcastGo_cons_see user vis fails ws tl hcid hget hsee, if_neg hf]
            dsimp only
            exact ih s hndtl hrestl p hptl hpne hpsee hpf
        · rw [broadcastGo_cons_nosee user vis fails ws tl hcid hget
            (Bool.not_eq_true _ ▸ Bool.of_not_eq_true hsee)]
          exact ih s hndtl hrestl p hptl hpne hpsee hpf

end LocationManager

/-! ### Key-consistency preservation -/

theorem LMkeyEq_connect (ws : Nat) (u : User) {s : LMState} (h : LMkeyEq s) :
    LMkeyEq (LocationManager.connect ws u s) := by
  constructor
  · intro k hk
    rcases mem_keys_dictInsert.mp hk with hk | hk
    · exact mem_keys_dictInsert.mpr (Or.inl (h.1 k hk))
    · exact mem_keys_dictInsert.mpr (Or.inr hk)
  · intro k hk
    rcases mem_keys_dictInsert.mp hk with hk | hk
    · exact mem_keys_dictInsert.mpr (Or.inl (h.2 k hk))
    · exact mem_keys_dictInsert.mpr (Or.inr hk)

theorem LMkeyEq_disconnect (ws : Nat) (u : User) {s : LMState} (h : LMkeyEq s) :
    LMkeyEq (LocationManager.disconnect ws u s) := by
  constructor
  · intro k hk
    obtain ⟨hk, hne⟩ := mem_keys_dictRemove.mp hk
    exact mem_keys_dictRemove.mpr ⟨h.1 k hk, hne⟩
  · intro k hk
    obtain ⟨hk, hne⟩ := mem_keys_dictRemove.mp hk
    exact mem_keys_dictRemove.mpr ⟨h.2 k hk, hne⟩

theorem broadcastGo_keyEq (user : User) (vis : String) (fails : Nat → Bool) :
    ∀ (l : List (Nat × Nat)) (s : LMState), LMkeyEq s →
      LMkeyEq (LocationManager.broadcastGo user vis fails l s).1 := by
  intro l
  induction l with
  | nil => intro s h; exact h
  | cons hd tl ih =>
    intro s h
    obtain ⟨cid, ws⟩ := hd
    by_cases hcid : cid = user.id
    · rw [LocationManager.broadcastGo_cons_sender user vis fails ws tl s hcid]
      exact ih s h
    · cases hget : dictGet s.user_data cid with
      | none =>
        rw [LocationManager.broadcastGo_cons_nouser user vis fails ws tl hcid hget]
        exact ih s h
      | some cu =>
        by_cases hsee : LocationManager.can_see vis cu.role = true
        · by_cases hf : fails ws
          · rw [LocationManager.broadcastGo_cons_see user vis fails ws tl hcid hget hsee,
              if_pos hf]
            exact ih _ (LMkeyEq_disconnect ws cu h)
          · rw [LocationManager.broadcastGo_cons_see user vis fails ws tl hcid hget hsee,
              if_neg hf]
            exact ih s h
        · rw [LocationManager.broadcastGo_cons_nosee user vis fails ws tl hcid hget
            (Bool.not_eq_true _ ▸ Bool.of_not_eq_true hsee)]
          exact ih s h

theorem CMkeyEq_connect (ws : Nat) (u : User) {s : CMState} (h : CMkeyEq s) :
    CMkeyEq (ChatManager.connect ws u s) := by
  constructor
  · intro k hk
    rcases mem_keys_dictInsert.mp hk with hk | hk
    · exact mem_keys_dictInsert.mpr (Or.inl (h.1 k hk))
    · exact mem_keys_dictInsert.mpr (Or.inr hk)
  · intro k hk
    rcases mem_keys_dictInsert.mp hk with hk | hk
    · exact mem_keys_dictInsert.mpr (Or.inl (h.2 k hk))
    · exact mem_keys_dictInsert.mpr (Or.inr hk)

theorem CMkeyEq_disconnect (ws : Nat) (u : User) {s : CMState} (h : CMkeyEq s) :
    CMkeyEq (ChatManager.disconnect ws u s) := by
  constructor
  · intro k hk
    obtain ⟨hk, hne⟩ := mem_keys_dictRemove.mp hk
    exact mem_keys_dictRemove.mpr ⟨h.1 k hk, hne⟩
  · intro k hk
    obtain ⟨hk, hne⟩ := mem_keys_dictRemove.mp hk
    exact mem_keys_dictRemove.mpr ⟨h.2 k hk, hne⟩

theorem CMkeyEq_join_channel (ws c : Nat) {s : CMState} (h : CMkeyEq s) :
    CMkeyEq (ChatManager.join_channel ws c s) := by
  unfold ChatManager.join_channel
  cases ChatManager.findUserId ws s with
  | none => exact h
  | some uid => exact h

theorem CMkeyEq_leave_channel (ws c : Nat) {s : CMState} (h : CMkeyEq s) :
    CMkeyEq (ChatManager.leave_channel ws c s) := by
  unfold ChatManager.leave_channel
  cases ChatManager.findUserId ws s with
  | none => exact h
  | some uid =>
    cases dictGet s.channel_subscriptions c with
    | none => exact h
    | some subs => exact h

theorem broadcast_message_state (sender : User) (m : Message) (fails : Nat → Bool)
    (s : CMState) : (ChatManager.broadcast_message sender m fails s).1 = s := by
  obtain ⟨mc, mr⟩ := m
  cases mc with
  | some c => rfl
  | none =>
    cases mr with
    | some r => rfl
    | none => rfl

/-! ### Set and chat-broadcast lemmas -/

theorem mem_setDiscard {l : List Nat} {x y : Nat} :
    y ∈ setDiscard l x ↔ y ∈ l ∧ y ≠ x := by
  constructor
  · intro hy
    have h := List.mem_filter.mp hy
    exact ⟨h.1, boolOfNe.mp h.2⟩
  · rintro ⟨hy, hne⟩
    exact List.mem_filter.mpr ⟨hy, boolOfNe.mpr hne⟩

theorem setDiscard_nodup {l : List Nat} {x : Nat} (h : l.Nodup) :
    (setDiscard l x).Nodup :=
  h.sublist (List.filter_sublist l)

theorem mem_setAdd {l : List Nat} {x y : Nat} :
    y ∈ setAdd l x ↔ y ∈ l ∨ y = x := by
  unfold setAdd
  by_cases hx : x ∈ l
  · rw [if_pos hx]
    constructor
    · exact Or.inl
    · rintro (h | h)
      · exact h
      · exact h ▸ hx
  · rw [if_neg hx]
    simp

theorem setAdd_nodup {l : List Nat} {x : Nat} (h : l.Nodup) : (setAdd l x).Nodup := by
  unfold setAdd
  by_cases hx : x ∈ l
  · rwa [if_pos hx]
  · rw [if_neg hx]
    exact List.nodup_append.mpr
      ⟨h, List.nodup_singleton x, fun a ha hax => hx (by simpa [List.mem_singleton.mp hax] using ha)⟩

namespace ChatManager

/-- Every sink written by a chat broadcast is the registered sink of the
identity it is addressed to. -/
theorem broadcast_sent_resolve (sender : User) (m : Message) (fails : Nat → Bool)
    (s : CMState) :
    ∀ p ∈ (broadcast_message sender m fails s).2,
      dictGet s.active_connections p.1 = some p.2 := by
  obtain ⟨mc, mr⟩ := m
  cases mc with
  | some c =>
    intro p hp
    obtain ⟨uid, huid, hf⟩ := List.mem_filterMap.mp hp
    obtain ⟨w, hget, heq⟩ := Option.map_eq_some'.mp hf
    rw [← heq]
    exact hget
  | none =>
    cases mr with
    | some r =>
      intro p hp
      cases hr : dictGet s.active_connections r with
      | none =>
        cases hsd : dictGet s.active_connections sender.id with
        | none => simp [broadcast_message, hr, hsd] at hp
        | some w =>
          have : p = (sender.id, w) := by simpa [broadcast_message, hr, hsd] using hp
          simpa [this] using hsd
      | some w =>
        cases hsd : dictGet s.active_connections sender.id with
        | none =>
          have : p = (r, w) := by simpa [broadcast_message, hr, hsd] using hp
          simpa [this] using hr
        | some w' =>
          have : p = (r, w) ∨ p = (sender.id, w') := by
            simpa [broadcast_message, hr, hsd] using hp
          rcases this with h | h <;> simp [h, hr, hsd]
    | none =>
      intro p hp
      simp [broadcast_message] at hp

/-- Channel-branch membership: a pair is written iff its identity is a
current subscriber of the channel and resolves in the registry. -/
theorem broadcast_channel_mem (sender : User) {m : Message} {c : Nat}
    (fails : Nat → Bool) (s : CMState) (hc : m.channel_id = some c) :
    ∀ uid w, ((uid, w) ∈ (broadcast_message sender m fails s).2 ↔
      uid ∈ (dictGet s.channel_subscriptions c).getD [] ∧
      dictGet s.active_connections uid = some w) := by
  obtain ⟨mc, mr⟩ := m
  obtain rfl : mc = some c := hc
  intro uid w
  constructor
  · intro hp
    obtain ⟨uid', huid', hf⟩ := List.mem_filterMap.mp hp
    obtain ⟨w', hget, heq⟩ := Option.map_eq_some'.mp hf
    obtain ⟨h1, h2⟩ := Prod.mk.injEq .. ▸ heq
    exact ⟨h1 ▸ huid', h1 ▸ h2 ▸ hget⟩
  · rintro ⟨hsub, hget⟩
    exact List.mem_filterMap.mpr ⟨uid, hsub, by simp [hget]⟩

/-- After `disconnect`, the identity is in no channel's subscriber set. -/
theorem disconnect_channels (ws : Nat) (u : User) (s : CMState) (c : Nat) :
    u.id ∉ (dictGet (disconnect ws u s).channel_subscriptions c).getD [] := by
  show u.id ∉ (dictGet (s.channel_subscriptions.map fun p => (p.1, setDiscard p.2 u.id)) c).getD []
  rw [dictGet_map_values (fun l => setDiscard l u.id) s.channel_subscriptions c]
  cases h : dictGet s.channel_subscriptions c with
  | none => simp
  | some subs =>
    simp only [Option.map_some', Option.getD_some]
    intro hmem
    exact (mem_setDiscard.mp hmem).2 rfl

end ChatManager

/-! ### Helper lemmas about the visibility strings and resolved roles -/

theorem can_see_public (r : UserRole) : LocationManager.can_see "public" r = true := by
  unfold LocationManager.can_see
  rw [if_pos rfl]

theorem can_see_coordinators (r : UserRole) :
    LocationManager.can_see "coordinators" r =
      decide (r = .coordinator ∨ r = .admin) := by
  cases r <;> decide

/-- In a well-formed state every registered connection resolves, under its
own identity, the user object that `storedUser` denotes. -/
theorem LMWf_resolves {s : LMState} (hwf : LMWf s) :
    ∀ p ∈ s.active_connections,
      dictGet s.user_data p.1 = some (storedUser s p.1) ∧
        (storedUser s p.1).id = p.1 := by
  intro p hp
  have hk : p.1 ∈ keys s.active_connections := List.mem_map.mpr ⟨p, hp, rfl⟩
  have hk' : p.1 ∈ keys s.user_data := hwf.2.2.1 p.1 hk
  obtain ⟨v, hv⟩ := Option.isSome_iff_exists.mp (mem_keys_iff_isSome.mp hk')
  have hst : storedUser s p.1 = v := by simp [storedUser, hv]
  exact ⟨by rw [hst]; exact hv,
    by rw [hst]; exact hwf.2.2.2.2 (p.1, v) (dictGet_eq_some_mem hv)⟩

/-- Top-level form of the fan-out characterization: over a well-formed
state, the attempted sends of a location broadcast are exactly the
non-sender registry entries whose stored role passes the visibility
check — independently of which sends fail. -/
theorem broadcast_location_sent_eq (u : User) (loc : Location) (fails : Nat → Bool)
    {s : LMState} (hwf : LMWf s) :
    (LocationManager.broadcast_location u loc fails s).2 =
      s.active_connections.filter fun p =>
        if p.1 = u.id then false
        else LocationManager.can_see loc.visibility (storedUser s p.1).role :=
  LocationManager.broadcastGo_sent_eq u loc.visibility fails (storedUser s)
    s.active_connections s hwf.1 (LMWf_resolves hwf)

/-- The identities produced by resolving a subscriber list against the
registry form a sublist of the subscriber list. -/
theorem filterMap_resolve_fst_sublist (act : List (Nat × Nat)) (subs : List Nat) :
    List.Sublist
      ((subs.filterMap fun uid =>
        (dictGet act uid).map fun w => (uid, w)).map Prod.fst) subs := by
  induction subs with
  | nil => simp
  | cons hd tl ih =>
    cases h : dictGet act hd with
    | none =>
      rw [List.filterMap_cons]
      simp only [h, Option.map_none']
      exact ih.cons hd
    | some w =>
      rw [List.filterMap_cons]
      simp only [h, Option.map_some']
      rw [List.map_cons]
      exact ih.cons₂ hd

/-- The identities targeted by a filtered fan-out over the registry form a
sublist of the registry's key list. -/
theorem filter_fst_sublist (l : List (Nat × Nat)) (q : Nat × Nat → Bool) :
    List.Sublist ((l.filter q).map Prod.fst) (keys l) :=
  (List.filter_sublist l).map Prod.fst

/-! ### Claims -/

/-- C1: the visibility policy of `broadcast_location` is exactly the §4.2
table — a public event is observable by every role, a verified-only event
exactly by verified_spotter/coordinator/admin, a coordinators-only event
exactly by coordinator/admin — and the policy is monotone in the role
hierarchy: a role at least as high observes whatever a lower role does. -/
theorem C1_visibility_policy_table_and_monotone :
    (∀ t r, may_observe t r = may_observe_table t r) ∧
    (∀ t r₁ r₂, r₁.rank ≤ r₂.rank →
      may_observe t r₁ = true → may_observe t r₂ = true) := by
  constructor
  · intro t r
    cases t <;> cases r <;> decide
  · intro t r₁ r₂
    cases t <;> cases r₁ <;> cases r₂ <;> decide

/-- C1 witness: monotonicity applied at the verified-only tier for
verified_spotter ≤ admin. -/
theorem C1_witness : may_observe Tier.verified_only UserRole.admin = true :=
  C1_visibility_policy_table_and_monotone.2 Tier.verified_only
    UserRole.verified_spotter UserRole.admin (by decide) (by decide)

/-- C2: over any well-formed registry state, a public location update is
attempted to every other registered connection regardless of role; a
coordinators-only update exactly to the other connections whose stored
role is coordinator or admin; and no location broadcast ever targets the
sender's own connection. -/
theorem C2_location_broadcast_recipients (u : User) (loc : Location)
    (fails : Nat → Bool) (s : LMState) (hwf : LMWf s) :
    (loc.visibility = "public" →
      ∀ p, p ∈ (LocationManager.broadcast_location u loc fails s).2 ↔
        (p ∈ s.active_connections ∧ p.1 ≠ u.id)) ∧
    (loc.visibility = "coordinators" →
      ∀ p, p ∈ (LocationManager.broadcast_location u loc fails s).2 ↔
        (p ∈ s.active_connections ∧ p.1 ≠ u.id ∧
          ((storedUser s p.1).role = .coordinator ∨
            (storedUser s p.1).role = .admin))) ∧
    (∀ p ∈ (LocationManager.broadcast_location u loc fails s).2, p.1 ≠ u.id) := by
  refine ⟨?_, ?_, ?_⟩
  · intro hvis p
    rw [broadcast_location_sent_eq u loc fails hwf, List.mem_filter, hvis]
    constructor
    · rintro ⟨hp, hpred⟩
      refine ⟨hp, ?_⟩
      intro h
      rw [if_pos h] at hpred
      exact Bool.false_ne_true hpred
    · rintro ⟨hp, hne⟩
      refine ⟨hp, ?_⟩
      rw [if_neg hne]
      exact can_see_public _
  · intro hvis p
    rw [broadcast_location_sent_eq u loc fails hwf, List.mem_filter, hvis]
    constructor
    · rintro ⟨hp, hpred⟩
      by_cases h : p.1 = u.id
      · rw [if_pos h] at hpred
        exact absurd hpred Bool.false_ne_true
      · rw [if_neg h, can_see_coordinators] at hpred
        exact ⟨hp, h, of_decide_eq_true hpred⟩
    · rintro ⟨hp, hne, hrole⟩
      refine ⟨hp, ?_⟩
      rw [if_neg hne, can_see_coordinators]
      exact decide_eq_true hrole
  · intro p hp
    exact LocationManager.broadcastGo_sent_ne_sender u loc.visibility fails
      s.active_connections s p hp

/-- C2 witness: in the concrete state with A/B/C connected, A's public
update reaches B's connection. -/
theorem C2_witness :
    (2, 20) ∈ (LocationManager.broadcast_location userA ⟨"public"⟩
      (fun _ => false) lmABC).2 :=
  ((C2_location_broadcast_recipients userA ⟨"public"⟩ (fun _ => false) lmABC
    (by decide)).1 rfl (2, 20)).mpr ⟨by decide, by decide⟩

/-- C3 counterexample: identity 1 (userA) is registered on sink 1 and then
re-registered on sink 2; a later disconnect carrying the stale sink 1
evicts the new mapping anyway — the claimed stored-sink comparison does
not exist in `disconnect`, which deletes purely by identity. -/
theorem C3_counterexample :
    dictGet (LocationManager.connect 2 userA
      (LocationManager.connect 1 userA LocationManager.init)).active_connections
      userA.id = some 2 ∧
    dictGet (LocationManager.disconnect 1 userA
      (LocationManager.connect 2 userA
        (LocationManager.connect 1 userA LocationManager.init))).active_connections
      userA.id = none := by decide

/-- C3 amended: in both managers, `disconnect(identity, sink)` removes the
identity's mapping unconditionally whenever present — the sink argument is
never compared against the stored sink — while mappings of every other
identity are left unchanged. -/
theorem C3_amended_disconnect_ignores_sink (ws : Nat) (u : User) (s : LMState)
    (t : CMState) :
    dictGet (LocationManager.disconnect ws u s).active_connections u.id = none ∧
    dictGet (LocationManager.disconnect ws u s).user_data u.id = none ∧
    (∀ k, k ≠ u.id →
      dictGet (LocationManager.disconnect ws u s).active_connections k =
        dictGet s.active_connections k) ∧
    dictGet (ChatManager.disconnect ws u t).active_connections u.id = none ∧
    dictGet (ChatManager.disconnect ws u t).user_data u.id = none ∧
    (∀ k, k ≠ u.id →
      dictGet (ChatManager.disconnect ws u t).active_connections k =
        dictGet t.active_connections k) :=
  ⟨dictGet_dictRemove_self _ _, dictGet_dictRemove_self _ _,
    fun _ hk => dictGet_dictRemove_ne hk,
    dictGet_dictRemove_self _ _, dictGet_dictRemove_self _ _,
    fun _ hk => dictGet_dictRemove_ne hk⟩

/-- C3 amended witness: after the stale disconnect of identity 1, the
mapping of identity 2 is untouched. -/
theorem C3_amended_witness :
    dictGet (LocationManager.disconnect 1 userA lmABC).active_connections 2 =
      some 20 := by
  rw [(C3_amended_disconnect_ignores_sink 1 userA lmABC cmABC).2.2.1 2 (by decide)]
  decide

/-- C4 counterexample: authenticated user A (registered in `cmABC`)
receives a `"message"` frame whose required `content` key is missing; the
`KeyError` escapes the receive loop, so contrary to the claim the
connection does not stay open: the loop stops and A is unregistered. -/
theorem C4_counterexample :
    (websocket_chat_step userA 10 ⟨some "message", none, some 5, none⟩
      (fun _ => false) cmABC).2 = false ∧
    dictGet (websocket_chat_step userA 10 ⟨some "message", none, some 5, none⟩
      (fun _ => false) cmABC).1.active_connections userA.id = none := by decide

/-- C4 amended: a frame of unrecognized kind is dropped and the receive
loop continues with the manager state untouched, in both routers; but a
frame missing a required field (`content` for a chat message, `longitude`
for a location update) raises out of the loop — the connection terminates
and the handler disconnects the user; and a `"message"` frame with the
mutually-exclusive `channel_id` and `recipient_id` both set is not
rejected: it is processed (as a channel send, `channel_id` winning). -/
theorem C4_amended_frame_handling (u : User) (ws : Nat) (fails : Nat → Bool)
    (s : CMState) (t : LMState) (f : ChatFrame) (g : LocFrame)
    (hf1 : f.ftype ≠ some "message") (hf2 : f.ftype ≠ some "join_channel")
    (hf3 : f.ftype ≠ some "leave_channel")
    (hg1 : g.ftype ≠ some "location_update") (hg2 : g.ftype ≠ some "stop_sharing") :
    websocket_chat_step u ws f fails s = (s, true) ∧
    websocket_location_step u ws g fails t = (t, true) ∧
    (∀ cid rid, websocket_chat_step u ws ⟨some "message", none, cid, rid⟩ fails s =
      (ChatManager.disconnect ws u s, false)) ∧
    (∀ lat vis,
      websocket_location_step u ws ⟨some "location_update", lat, none, vis⟩ fails t =
        (LocationManager.disconnect ws u t, false)) ∧
    (∀ content c r,
      websocket_chat_step u ws ⟨some "message", some content, some c, some r⟩ fails s =
        ((ChatManager.broadcast_message u ⟨some c, some r⟩ fails s).1, true)) := by
  refine ⟨?_, ?_, ?_, ?_, ?_⟩
  · simp [websocket_chat_step, hf1, hf2, hf3]
  · simp [websocket_location_step, hg1, hg2]
  · intro cid rid
    simp [websocket_chat_step]
  · intro lat vis
    cases lat <;> simp [websocket_location_step]
  · intro content c r
    simp [websocket_chat_step]

/-- C4 amended witness: an unknown frame kind leaves user A's chat
connection open and the state unchanged. -/
theorem C4_amended_witness :
    websocket_chat_step userA 10 ⟨some "bogus", none, none, none⟩
      (fun _ => false) cmABC = (cmABC, true) :=
  (C4_amended_frame_handling userA 10 (fun _ => false) cmABC lmABC
    ⟨some "bogus", none, none, none⟩ ⟨some "bogus", none, none, none⟩
    (by decide) (by decide) (by decide) (by decide) (by decide)).1

/-- C5 counterexample: with identity 1 already registered on sink 5,
`connect` with the new sink 7 evaluates to Python `None` — the previous
sink 5, which the spec's `register` contract returns, is not reported. -/
theorem C5_counterexample :
    (LocationManager.connectRet 7 userA
      (LocationManager.connect 5 userA LocationManager.init)).2 = none ∧
    (register_spec 7 userA
      (LocationManager.connect 5 userA LocationManager.init)).2 = some 5 ∧
    (LocationManager.connectRet 7 userA
        (LocationManager.connect 5 userA LocationManager.init)).2 ≠
      (register_spec 7 userA
        (LocationManager.connect 5 userA LocationManager.init)).2 := by decide

/-- C5 amended: registering stores the new sink under the identity,
replacing rather than adding — an already-present identity keeps the key
set unchanged, other identities' mappings are untouched — in both
managers; but the previously stored sink is not returned to the caller
(`connect` has no return value). -/
theorem C5_amended_register_replaces (ws : Nat) (u : User) (s : LMState)
    (t : CMState) :
    dictGet (LocationManager.connect ws u s).active_connections u.id = some ws ∧
    (∀ k, k ≠ u.id →
      dictGet (LocationManager.connect ws u s).active_connections k =
        dictGet s.active_connections k) ∧
    (u.id ∈ keys s.active_connections →
      ∀ x, x ∈ keys (LocationManager.connect ws u s).active_connections ↔
        x ∈ keys s.active_connections) ∧
    (LocationManager.connectRet ws u s).2 = none ∧
    dictGet (ChatManager.connect ws u t).active_connections u.id = some ws ∧
    (ChatManager.connectRet ws u t).2 = none := by
  refine ⟨dictGet_dictInsert_self _ _ _, fun _ hk => dictGet_dictInsert_ne hk,
    ?_, rfl, dictGet_dictInsert_self _ _ _, rfl⟩
  intro hmem x
  show x ∈ keys (dictInsert s.active_connections u.id ws) ↔ x ∈ keys s.active_connections
  rw [mem_keys_dictInsert]
  constructor
  · rintro (h | h)
    · exact h
    · exact h ▸ hmem
  · exact Or.inl

/-- C5 amended witness: re-registering identity 1 on sink 7 leaves identity
2's mapping unchanged. -/
theorem C5_amended_witness :
    dictGet (LocationManager.connect 7 userA lmABC).active_connections 2 =
      some 20 := by
  rw [(C5_amended_register_replaces 7 userA lmABC cmABC).2.1 2 (by decide)]
  decide

/-- C6: a channel message is written exactly to the sinks of the channel's
current subscribers that resolve in the registry — including the sender's
own sink when subscribed — and to nobody outside the subscriber set;
members without a current connection are skipped and nothing is queued
(the state is unchanged); in a well-formed state each targeted identity
appears exactly once. -/
theorem C6_channel_delivery (sender : User) (m : Message) (c : Nat)
    (fails : Nat → Bool) (s : CMState) (hc : m.channel_id = some c) :
    (∀ uid w, ((uid, w) ∈ (ChatManager.broadcast_message sender m fails s).2 ↔
      uid ∈ (dictGet s.channel_subscriptions c).getD [] ∧
      dictGet s.active_connections uid = some w)) ∧
    (ChatManager.broadcast_message sender m fails s).1 = s ∧
    (CMWf s →
      ((ChatManager.broadcast_message sender m fails s).2.map Prod.fst).Nodup) := by
  refine ⟨ChatManager.broadcast_channel_mem sender fails s hc,
    broadcast_message_state sender m fails s, ?_⟩
  intro hwf
  obtain ⟨mc, mr⟩ := m
  obtain rfl : mc = some c := hc
  have hsubs : ((dictGet s.channel_subscriptions c).getD []).Nodup := by
    cases h : dictGet s.channel_subscriptions c with
    | none => simp
    | some subs =>
      simpa using hwf.2.2.2.2.2 (c, subs) (dictGet_eq_some_mem h)
  exact hsubs.sublist
    (filterMap_resolve_fst_sublist s.active_connections
      ((dictGet s.channel_subscriptions c).getD []))

/-- C6 witness: with A and B subscribed to channel 100, A's channel message
is delivered to A's own sink (the sender is subscribed). -/
theorem C6_witness :
    (1, 10) ∈ (ChatManager.broadcast_message userA ⟨some 100, none⟩
      (fun _ => false) cmChan).2 :=
  ((C6_channel_delivery userA ⟨some 100, none⟩ 100 (fun _ => false) cmChan
    rfl).1 1 10).mpr ⟨by decide, by decide⟩

/-- C7: a direct message to a distinct, currently registered recipient is
written once to the recipient's sink and echoed once to the sender's own
sink — the delivery list is exactly those two entries — and no identity
other than the recipient and the sender is targeted. -/
theorem C7_direct_message (sender : User) (m : Message) (b wb wa : Nat)
    (fails : Nat → Bool) (s : CMState)
    (hch : m.channel_id = none) (hrec : m.recipient_id = some b)
    (hwb : dictGet s.active_connections b = some wb)
    (hwa : dictGet s.active_connections sender.id = some wa)
    (hne : b ≠ sender.id) :
    (ChatManager.broadcast_message sender m fails s).2 = [(b, wb), (sender.id, wa)] ∧
    (ChatManager.broadcast_message sender m fails s).2.count (b, wb) = 1 ∧
    (ChatManager.broadcast_message sender m fails s).2.count (sender.id, wa) = 1 ∧
    (∀ p ∈ (ChatManager.broadcast_message sender m fails s).2,
      p.1 = b ∨ p.1 = sender.id) := by
  obtain ⟨mc, mr⟩ := m
  obtain rfl : mc = none := hch
  obtain rfl : mr = some b := hrec
  have hsent : (ChatManager.broadcast_message sender ⟨none, some b⟩ fails s).2 =
      [(b, wb), (sender.id, wa)] := by
    simp [ChatManager.broadcast_message, hwb, hwa]
  refine ⟨hsent, ?_, ?_, ?_⟩
  · rw [hsent]
    simp [List.count_cons, Prod.mk.injEq, hne]
  · rw [hsent]
    have : ¬(b = sender.id ∧ wb = wa) := fun h => hne h.1
    simp [List.count_cons, Prod.mk.injEq, hne]
  · intro p hp
    rw [hsent] at hp
    rcases List.mem_cons.mp hp with h | h
    · exact Or.inl (by simp [h])
    · exact Or.inr (by simp [List.mem_singleton.mp h])

/-- C7 witness: A's direct message to C (id 3, sink 30) is delivered to C
and echoed to A, exactly those two writes. -/
theorem C7_witness :
    (ChatManager.broadcast_message userA ⟨none, some 3⟩
      (fun _ => false) cmABC).2 = [(3, 30), (1, 10)] :=
  (C7_direct_message userA ⟨none, some 3⟩ 3 30 10 (fun _ => false) cmABC
    rfl rfl (by decide) (by decide) (by decide)).1

/-- C8: after a disconnect of identity I, I is keyed in neither registry
dict and is in no channel's subscriber set; consequently no subsequent
chat broadcast (channel or direct) over the resulting state targets I, and
in the location manager no subsequent presence broadcast targets I
either. -/
theorem C8_disconnect_scrubs_everything (ws : Nat) (u : User) (s : CMState)
    (t : LMState) :
    dictGet (ChatManager.disconnect ws u s).active_connections u.id = none ∧
    dictGet (ChatManager.disconnect ws u s).user_data u.id = none ∧
    (∀ c, u.id ∉
      (dictGet (ChatManager.disconnect ws u s).channel_subscriptions c).getD []) ∧
    (∀ sender m fails, ∀ p ∈ (ChatManager.broadcast_message sender m fails
        (ChatManager.disconnect ws u s)).2, p.1 ≠ u.id) ∧
    dictGet (LocationManager.disconnect ws u t).active_connections u.id = none ∧
    dictGet (LocationManager.disconnect ws u t).user_data u.id = none ∧
    (∀ sender loc fails, ∀ p ∈ (LocationManager.broadcast_location sender loc fails
        (LocationManager.disconnect ws u t)).2, p.1 ≠ u.id) := by
  refine ⟨dictGet_dictRemove_self _ _, dictGet_dictRemove_self _ _,
    ChatManager.disconnect_channels ws u s, ?_, dictGet_dictRemove_self _ _,
    dictGet_dictRemove_self _ _, ?_⟩
  · intro sender m fails p hp he
    have hres := ChatManager.broadcast_sent_resolve sender m fails
      (ChatManager.disconnect ws u s) p hp
    have hnone : dictGet (ChatManager.disconnect ws u s).active_connections u.id =
        none := dictGet_dictRemove_self _ _
    rw [he, hnone] at hres
    exact Option.noConfusion hres
  · intro sender loc fails p hp he
    have hmem := LocationManager.broadcastGo_sent_subset sender loc.visibility fails
      (LocationManager.disconnect ws u t).active_connections
      (LocationManager.disconnect ws u t) p hp
    have hk : p.1 ∈ keys (LocationManager.disconnect ws u t).active_connections :=
      List.mem_map.mpr ⟨p, hmem, rfl⟩
    have hsome := mem_keys_iff_isSome.mp hk
    have hnone : dictGet (LocationManager.disconnect ws u t).active_connections u.id =
        none := dictGet_dictRemove_self _ _
    rw [he, hnone] at hsome
    exact Bool.false_ne_true hsome

/-- C8 witness: after A's chat disconnect, B's direct message to himself is
delivered only to identities other than A. -/
theorem C8_witness : (2 : Nat) ≠ userA.id :=
  (C8_disconnect_scrubs_everything 10 userA cmABC lmABC).2.2.2.1 userB
    ⟨none, some 2⟩ (fun _ => false) (2, 20) (by decide)

/-- C9 counterexample: B's sink 20 fails while A broadcasts a stop-sharing
notice over `lmABC`; the claim requires the failing recipient's stale entry
to be removed, but `stop_sharing` swallows the failure: the state is
completely unchanged and B stays registered (the failing sink was attempted
and the loop continued to C regardless).  The chat broadcaster likewise
leaves the registry unchanged when the recipient's sink fails. -/
theorem C9_counterexample :
    (LocationManager.stop_sharing userA (fun w => w == 20) lmABC).1 = lmABC ∧
    dictGet (LocationManager.stop_sharing userA
      (fun w => w == 20) lmABC).1.active_connections 2 = some 20 ∧
    (2, 20) ∈ (LocationManager.stop_sharing userA (fun w => w == 20) lmABC).2 ∧
    (3, 30) ∈ (LocationManager.stop_sharing userA (fun w => w == 20) lmABC).2 ∧
    (ChatManager.broadcast_message userB ⟨none, some 1⟩
      (fun w => w == 10) cmABC).1 = cmABC := by decide

/-- C9 amended: for every broadcast, a send failure is never surfaced to
the sender and never retried — the attempted fan-out of a location
broadcast is independent of which sinks fail, and each recipient identity
is attempted at most once — but the stale-entry removal exists only in the
location-update broadcast, which disconnects the failing recipient from
both registry dicts; `stop_sharing` and the chat broadcaster leave all
manager state unchanged on failure. -/
theorem C9_amended_failure_handling :
    (∀ (u : User) (loc : Location) (fails : Nat → Bool) (s : LMState), LMWf s →
      ∀ p ∈ s.active_connections, p.1 ≠ u.id →
        LocationManager.can_see loc.visibility (storedUser s p.1).role = true →
        fails p.2 = true →
        dictGet (LocationManager.broadcast_location u loc fails
          s).1.active_connections p.1 = none ∧
        dictGet (LocationManager.broadcast_location u loc fails
          s).1.user_data p.1 = none) ∧
    (∀ (u : User) (loc : Location) (fails fails' : Nat → Bool) (s : LMState),
      LMWf s →
      (LocationManager.broadcast_location u loc fails s).2 =
        (LocationManager.broadcast_location u loc fails' s).2) ∧
    (∀ (u : User) (loc : Location) (fails : Nat → Bool) (s : LMState), LMWf s →
      ((LocationManager.broadcast_location u loc fails s).2.map Prod.fst).Nodup) ∧
    (∀ (u : User) (fails : Nat → Bool) (s : LMState),
      (LocationManager.stop_sharing u fails s).1 = s) ∧
    (∀ (sender : User) (m : Message) (fails : Nat → Bool) (s : CMState),
      (ChatManager.broadcast_message sender m fails s).1 = s) := by
  refine ⟨?_, ?_, ?_, fun _ _ _ => rfl, broadcast_message_state⟩
  · intro u loc fails s hwf p hp hne hsee hf
    exact LocationManager.broadcastGo_removes_failed u loc.visibility fails
      (storedUser s) s.active_connections s hwf.1 (LMWf_resolves hwf) p hp hne hsee hf
  · intro u loc fails fails' s hwf
    rw [broadcast_location_sent_eq u loc fails hwf,
      broadcast_location_sent_eq u loc fails' hwf]
  · intro u loc fails s hwf
    rw [broadcast_location_sent_eq u loc fails hwf]
    exact hwf.1.sublist (filter_fst_sublist s.active_connections _)

/-- C9 amended witness: B's failing sink during A's public location
broadcast gets B disconnected from the registry. -/
theorem C9_amended_witness :
    dictGet (LocationManager.broadcast_location userA ⟨"public"⟩
      (fun w => w == 20) lmABC).1.active_connections 2 = none :=
  (C9_amended_failure_handling.1 userA ⟨"public"⟩ (fun w => w == 20) lmABC
    (by decide) (2, 20) (by decide) (by decide) (by decide) (by decide)).1

/-- C10: every operation of both managers — connect, disconnect, both
location broadcasts including the failure-teardown path, join/leave, and
the chat broadcast — preserves the invariant that `active_connections` and
`user_data` are keyed by the same identities; under that invariant every
registered connection resolves a user (and hence a role), and over a
well-formed state the presence fan-out is decided purely by
sender-exclusion and the resolved role's visibility — no connection is
skipped for lack of one. -/
theorem C10_registry_consistency :
    (∀ (ws : Nat) (u : User) (s : LMState), LMkeyEq s →
      LMkeyEq (LocationManager.connect ws u s)) ∧
    (∀ (ws : Nat) (u : User) (s : LMState), LMkeyEq s →
      LMkeyEq (LocationManager.disconnect ws u s)) ∧
    (∀ (u : User) (loc : Location) (fails : Nat → Bool) (s : LMState), LMkeyEq s →
      LMkeyEq (LocationManager.broadcast_location u loc fails s).1) ∧
    (∀ (u : User) (fails : Nat → Bool) (s : LMState), LMkeyEq s →
      LMkeyEq (LocationManager.stop_sharing u fails s).1) ∧
    (∀ (ws : Nat) (u : User) (s : CMState), CMkeyEq s →
      CMkeyEq (ChatManager.connect ws u s)) ∧
    (∀ (ws : Nat) (u : User) (s : CMState), CMkeyEq s →
      CMkeyEq (ChatManager.disconnect ws u s)) ∧
    (∀ (ws c : Nat) (s : CMState), CMkeyEq s →
      CMkeyEq (ChatManager.join_channel ws c s)) ∧
    (∀ (ws c : Nat) (s : CMState), CMkeyEq s →
      CMkeyEq (ChatManager.leave_channel ws c s)) ∧
    (∀ (sender : User) (m : Message) (fails : Nat → Bool) (s : CMState), CMkeyEq s →
      CMkeyEq (ChatManager.broadcast_message sender m fails s).1) ∧
    (∀ s : LMState, LMkeyEq s →
      ∀ p ∈ s.active_connections, (dictGet s.user_data p.1).isSome) ∧
    (∀ (u : User) (loc : Location) (fails : Nat → Bool) (s : LMState), LMWf s →
      (LocationManager.broadcast_location u loc fails s).2 =
        s.active_connections.filter fun p =>
          if p.1 = u.id then false
          else LocationManager.can_see loc.visibility (storedUser s p.1).role) := by
  refine ⟨fun ws u s h => LMkeyEq_connect ws u h,
    fun ws u s h => LMkeyEq_disconnect ws u h,
    fun u loc fails s h => broadcastGo_keyEq u loc.visibility fails
      s.active_connections s h,
    fun u fails s h => h,
    fun ws u s h => CMkeyEq_connect ws u h,
    fun ws u s h => CMkeyEq_disconnect ws u h,
    fun ws c s h => CMkeyEq_join_channel ws c h,
    fun ws c s h => CMkeyEq_leave_channel ws c h,
    ?_, ?_, fun u loc fails s hwf => broadcast_location_sent_eq u loc fails hwf⟩
  · intro sender m fails s h
    rw [broadcast_message_state]
    exact h
  · intro s h p hp
    exact mem_keys_iff_isSome.mp (h.1 p.1 (List.mem_map.mpr ⟨p, hp, rfl⟩))

/-- C10 witness: the invariant holds of the concrete three-user state and
is preserved by one more connect. -/
theorem C10_witness : LMkeyEq (LocationManager.connect 40 ⟨4, .admin, "public"⟩ lmABC) :=
  C10_registry_consistency.1 40 ⟨4, .admin, "public"⟩ lmABC (by decide)
